import Mathlib

/-!
Shallow embedding of rllte's `PrioritizedReplayStorage`
(`src/rllte/xploit/storage/prioritized_replay_storage.py`) and of the
relevant fragments of `OnPolicyAgent.train` / `OnPolicyAgent.eval`
(`src/rllte/common/prototype/on_policy_agent.py`).

Modelling conventions:
- Python floats are modelled as rationals (`ℚ`) wherever the code does plain
  arithmetic, and the results are cast to `ℝ` exactly where numpy takes a
  real power (`**` with a float exponent), so that states stay computable.
- `self.storage` is a `collections.deque(maxlen=storage_size)`; it is
  modelled as a `List` with the deque's append/evict rule.
- `np.random.choice(n, k, p=probs)` is modelled by passing the drawn index
  list explicitly together with its contract (each drawn index lies in the
  population and has positive probability); its input validation
  (population size positive, probabilities non-negative, no NaN — an
  all-zero priority vector yields `0/0 = NaN` probabilities and numpy
  raises `ValueError`) is modelled by the `Except.error` branches of
  `sample`.
-/

namespace Rllte

/-- Appending to a `collections.deque` with a `maxlen` bound: the new
element goes on the right and any leftmost elements beyond `maxlen` are
discarded. -/
def dequeAppend {τ : Type} (maxlen : ℕ) (xs : List τ) (x : τ) : List τ :=
  (xs ++ [x]).drop (xs.length + 1 - maxlen)

/-- numpy-style maximum of a list (`ndarray.max()`). numpy raises on an
empty array; here the empty case returns the junk value `0` (it is never
reached by the claims, which all have `storage_size ≥ 1`). -/
def npmax {α : Type} [LinearOrder α] [Zero α] (xs : List α) : α :=
  xs.foldr max (xs.headD 0)

/-- State of `PrioritizedReplayStorage` (`prioritized_replay_storage.py`,
lines 38-45): the deque of transitions, the parallel priority array of
length `storage_size`, and the write cursor `position`. -/
structure PRStorage (τ : Type) where
  storage_size : ℕ
  batch_size : ℕ
  alpha : ℚ
  beta : ℚ
  storage : List τ
  priorities : List ℚ
  position : ℕ

/-- The state built by `PrioritizedReplayStorage.__init__`: empty deque,
all-zero priority array of length `storage_size`, cursor at 0. -/
def PRStorage.fresh (τ : Type) (storage_size batch_size : ℕ)
    (alpha beta : ℚ) : PRStorage τ :=
  { storage_size := storage_size
    batch_size := batch_size
    alpha := alpha
    beta := beta
    storage := []
    priorities := List.replicate storage_size 0
    position := 0 }

/-- `__init__` including its `assert alpha > 0` guard (line 40): a
non-positive `alpha` fails fast with the assertion message. -/
def PRStorage.init (τ : Type) (storage_size batch_size : ℕ)
    (alpha beta : ℚ) : Except String (PRStorage τ) :=
  if 0 < alpha then
    Except.ok (PRStorage.fresh τ storage_size batch_size alpha beta)
  else
    Except.error "The prioritization value 'alpha' must be positive!"

/-- `PrioritizedReplayStorage.add` (lines 83-87): the new transition gets
priority `priorities.max()` when the deque is non-empty and `1.0` when it
is empty, written at index `position`; the transition is appended to the
deque (evicting the oldest once full) and the cursor advances modulo
`storage_size`. Total: `add` never fails. -/
def PRStorage.add {τ : Type} (s : PRStorage τ) (t : τ) : PRStorage τ :=
  let max_prio : ℚ := if s.storage.isEmpty then 1 else npmax s.priorities
  { s with
    priorities := s.priorities.set s.position max_prio
    storage := dequeAppend s.storage_size s.storage t
    position := (s.position + 1) % s.storage_size }

/-- Folding `add` over a list of transitions, oldest first. -/
def PRStorage.addAll {τ : Type} (s : PRStorage τ) (ts : List τ) : PRStorage τ :=
  ts.foldl PRStorage.add s

/-- `annealing_beta` (line 59):
`min(1.0, beta + step * (1.0 - beta) / storage_size)`. (For
`storage_size = 0` Python would raise `ZeroDivisionError`; here division by
zero is the junk value 0.) -/
def PRStorage.annealing_beta {τ : Type} (s : PRStorage τ) (step : ℕ) : ℚ :=
  min 1 (s.beta + step * (1 - s.beta) / s.storage_size)

/-- The priority slice used by `sample` (lines 98-101): the whole array
when the deque is full, else `priorities[:position]`. -/
def PRStorage.sliced {τ : Type} (s : PRStorage τ) : List ℚ :=
  if s.storage.length = s.storage_size then s.priorities
  else s.priorities.take s.position

/-- `probs = priorities ** alpha` (line 103), as reals since `alpha` is a
float exponent. -/
noncomputable def PRStorage.probsRaw {τ : Type} (s : PRStorage τ) : List ℝ :=
  s.sliced.map (fun p : ℚ => (p : ℝ) ^ (s.alpha : ℝ))

/-- `probs /= probs.sum()` (line 104): the normalized sampling
distribution over deque indices. -/
noncomputable def PRStorage.probs {τ : Type} (s : PRStorage τ) : List ℝ :=
  s.probsRaw.map (fun x => x / s.probsRaw.sum)

/-- The transitions fetched at the drawn indices,
`samples = [self.storage[i] for i in indices]` (line 107). -/
def PRStorage.drawn {τ : Type} [Inhabited τ] (s : PRStorage τ)
    (idxs : List ℕ) : List τ :=
  idxs.map (fun i => s.storage.getD i default)

/-- `PrioritizedReplayStorage.sample` (lines 89-126), with the random draw
of `np.random.choice` passed in as `idxs` and the weight computation
(lines 108-110) factored out into `rawWeights`/`weights` below (it takes
real powers). The `Except.error` branches model `np.random.choice`'s
input validation: an empty population raises, and an all-zero priority
slice makes `probs = 0/0` a NaN vector, which numpy rejects. `alpha > 0`
(enforced by `init`) ensures `p ** alpha > 0` exactly for `p > 0`. -/
def PRStorage.sample {τ : Type} [Inhabited τ] (s : PRStorage τ)
    (step : ℕ) (idxs : List ℕ) : Except String (List ℕ × List τ) :=
  if s.storage.length = 0 then
    Except.error "a must be greater than 0 unless no samples are taken"
  else if !(s.sliced.all (fun p => decide (0 ≤ p))) then
    Except.error "probabilities are not non-negative"
  else if s.sliced.any (fun p => decide (0 < p)) then
    Except.ok (idxs, s.drawn idxs)
  else
    Except.error "probabilities contain NaN"

/-- The per-index importance weights before normalization (line 108):
`weights = (len(self.storage) * probs[indices]) ** (-annealing_beta(step))`. -/
noncomputable def PRStorage.rawWeights {τ : Type} (s : PRStorage τ)
    (step : ℕ) (idxs : List ℕ) : List ℝ :=
  idxs.map (fun i =>
    ((s.storage.length : ℝ) * (s.probs.getD i 0)) ^ (-((s.annealing_beta step : ℚ) : ℝ)))

/-- The normalized weights returned by `sample` (line 109):
`weights /= weights.max()`. -/
noncomputable def PRStorage.weights {τ : Type} (s : PRStorage τ)
    (step : ℕ) (idxs : List ℕ) : List ℝ :=
  (s.rawWeights step idxs).map (fun x => x / npmax (s.rawWeights step idxs))

/-- `PrioritizedReplayStorage.update` (lines 128-141). The `metrics` dict
is modelled by `Option (List (ℕ × ℚ))`: `some pairs` is a dict holding
both keys `"indices"` and `"priorities"` with `pairs = zip(indices,
priorities)`; `none` is a dict missing at least one of the keys, in which
case nothing happens. Each pair overwrites `priorities[i] = abs(p)`. -/
def PRStorage.update {τ : Type} (s : PRStorage τ)
    (metrics : Option (List (ℕ × ℚ))) : PRStorage τ :=
  match metrics with
  | none => s
  | some pairs =>
    { s with
      priorities := pairs.foldl (fun ps ip => ps.set ip.1 (abs ip.2)) s.priorities }

/-- The `assert self.eval_env is not None, "No evaluation environment is
provided!"` guard opening `OnPolicyAgent.eval` (`on_policy_agent.py` line
234): with no evaluation environment configured the call fails fast with
the assertion message; otherwise the evaluation loop proceeds with the
environment. -/
def evalEnvGuard {ε : Type} (eval_env : Option ε) : Except String ε :=
  match eval_env with
  | some e => Except.ok e
  | none => Except.error "No evaluation environment is provided!"

/-- The fields of the rollout storage that `OnPolicyAgent.train` mutates
in the intrinsic-reward branch (external collaborator per the rollout
storage contract; entries enumerate the `(step, env)` positions of the
segment tensors). -/
structure RolloutStorage where
  advantages : List ℚ
  returns : List ℚ

/-- `on_policy_agent.py` lines 173-174:
`self.storage.advantages += intrinsic_rewards` and
`self.storage.returns += intrinsic_rewards` — elementwise in-place tensor
addition of the intrinsic rewards to both fields. -/
def injectIntrinsic (st : RolloutStorage) (ir : List ℚ) : RolloutStorage :=
  { advantages := List.zipWith (· + ·) st.advantages ir
    returns := List.zipWith (· + ·) st.returns ir }

/-- The agent counters and rollout storage touched by one update cycle of
`OnPolicyAgent.train`. -/
structure TrainState where
  storage : RolloutStorage
  global_step : ℕ
  global_episode : ℕ

/-- One update cycle of `OnPolicyAgent.train` (`on_policy_agent.py` lines
109-195), restricted to the state it provably mutates: `computeRA`
abstracts `self.storage.compute_returns_and_advantages` (line 148, the
rollout storage is an external collaborator), the intrinsic branch (lines
151-174) adds the intrinsic reward tensor to both `advantages` and
`returns` when a module is attached (`irs = some ir`), `rotate` abstracts
`self.storage.update()` (line 191), and the counters advance by
`num_envs * num_steps` and `num_envs` (lines 194-195). -/
def trainCycle (num_envs num_steps : ℕ)
    (computeRA rotate : RolloutStorage → RolloutStorage)
    (irs : Option (List ℚ)) (ts : TrainState) : TrainState :=
  let st1 := computeRA ts.storage
  let st2 := match irs with
    | some ir => injectIntrinsic st1 ir
    | none => st1
  { storage := rotate st2
    global_step := ts.global_step + num_envs * num_steps
    global_episode := ts.global_episode + num_envs }

/-- `num_updates = int(num_train_steps // self.num_envs // self.num_steps)`
(`on_policy_agent.py` line 107). -/
def numUpdates (num_train_steps num_envs num_steps : ℕ) : ℕ :=
  num_train_steps / num_envs / num_steps

/-- Concrete scenario for claim C1: capacity-2 storage; insert transitions
10 and 11, feed back priority 5 for sampled index 0, then insert
transition 12 (the cursor has wrapped around). The deque evicts 10, so
the state holds `storage = [11, 12]` with `priorities = [5, 1]`. -/
def c1state : PRStorage ℕ :=
  ((((PRStorage.fresh ℕ 2 1 1 (2/5)).add 10).add 11).update
    (some [(0, 5)])).add 12

/-- Concrete scenario for claim C4: capacity-1 storage; insert transition
10 (priority 1.0), then feed back priority 0 for index 0, leaving every
occupied slot with priority zero. -/
def c4state : PRStorage ℕ :=
  ((PRStorage.fresh ℕ 1 1 (3/5) (2/5)).add 10).update (some [(0, 0)])

/-! ### Helper lemmas -/

theorem le_foldr_max {α : Type} [LinearOrder α] (xs : List α) (a : α) :
    ∀ x ∈ xs, x ≤ xs.foldr max a := by
  induction xs with
  | nil => intro x hx; exact absurd hx (List.not_mem_nil x)
  | cons b l ih =>
    intro x hx
    rw [List.foldr_cons]
    rcases List.mem_cons.mp hx with h | h
    · rw [h]; exact le_max_left _ _
    · exact le_trans (ih x h) (le_max_right _ _)

theorem init_le_foldr_max {α : Type} [LinearOrder α] (xs : List α) (a : α) :
    a ≤ xs.foldr max a := by
  induction xs with
  | nil => exact le_refl a
  | cons b l ih =>
    rw [List.foldr_cons]
    exact le_trans ih (le_max_right _ _)

theorem foldr_max_mem {α : Type} [LinearOrder α] (xs : List α) (a : α) :
    xs.foldr max a = a ∨ xs.foldr max a ∈ xs := by
  induction xs with
  | nil => exact Or.inl rfl
  | cons b l ih =>
    rw [List.foldr_cons]
    rcases max_choice b (l.foldr max a) with h | h
    · right; rw [h]; exact List.mem_cons_self b l
    · rcases ih with h2 | h2
      · left; rw [h, h2]
      · right; rw [h]; exact List.mem_cons_of_mem b h2

theorem le_npmax {α : Type} [LinearOrder α] [Zero α] {xs : List α} {x : α}
    (h : x ∈ xs) : x ≤ npmax xs :=
  le_foldr_max xs (xs.headD 0) x h

theorem npmax_mem {α : Type} [LinearOrder α] [Zero α] {xs : List α}
    (h : xs ≠ []) : npmax xs ∈ xs := by
  rcases foldr_max_mem xs (xs.headD 0) with h2 | h2
  · rw [npmax, h2]
    cases xs with
    | nil => exact absurd rfl h
    | cons b l => exact List.mem_cons_self b l
  · exact h2

theorem foldl_dequeAppend {τ : Type} (c : ℕ) (hc : 0 < c) (ts : List τ) :
    ts.foldl (dequeAppend c) [] = ts.drop (ts.length - c) := by
  induction ts using List.reverseRecOn with
  | nil => simp
  | append_singleton l t ih =>
    rw [List.foldl_append, List.foldl_cons, List.foldl_nil, ih,
      List.length_append, List.length_singleton]
    rcases Nat.lt_or_ge l.length c with h | h
    · have h0 : l.length - c = 0 := Nat.sub_eq_zero_of_le (le_of_lt h)
      rw [h0, List.drop_zero, dequeAppend]
    · rw [dequeAppend, List.length_drop]
      have h1 : l.length - (l.length - c) + 1 - c = 1 := by omega
      rw [h1,
        List.drop_append_of_le_length
          (by rw [List.length_drop]; omega : 1 ≤ (l.drop (l.length - c)).length),
        List.drop_drop,
        List.drop_append_of_le_length (by omega : l.length + 1 - c ≤ l.length)]
      have h2 : l.length - c + 1 = l.length + 1 - c := by omega
      rw [h2]

theorem add_storage {τ : Type} (s : PRStorage τ) (t : τ) :
    (s.add t).storage = dequeAppend s.storage_size s.storage t := rfl

theorem addAll_storage {τ : Type} (s : PRStorage τ) (ts : List τ) :
    (s.addAll ts).storage = ts.foldl (dequeAppend s.storage_size) s.storage := by
  induction ts generalizing s with
  | nil => rfl
  | cons t rest ih =>
    show ((s.add t).addAll rest).storage = _
    rw [ih (s.add t), List.foldl_cons]
    rfl

theorem foldl_set_of_not_mem :
    ∀ (pairs : List (ℕ × ℚ)) (ps : List ℚ) (j : ℕ),
    j ∉ pairs.map Prod.fst →
    (pairs.foldl (fun ps ip => ps.set ip.1 (abs ip.2)) ps)[j]? = ps[j]? := by
  intro pairs
  induction pairs with
  | nil => intro ps j _; rfl
  | cons ip rest ih =>
    intro ps j hj
    rw [List.map_cons] at hj
    have hj1 : j ≠ ip.1 := fun h => hj (by rw [h]; exact List.mem_cons_self _ _)
    have hj2 : j ∉ rest.map Prod.fst := fun h => hj (List.mem_cons_of_mem _ h)
    rw [List.foldl_cons, ih _ j hj2, List.getElem?_set_ne (Ne.symm hj1)]

theorem foldl_set_of_mem :
    ∀ (pairs : List (ℕ × ℚ)) (ps : List ℚ) (i : ℕ) (p : ℚ),
    (pairs.map Prod.fst).Nodup → (i, p) ∈ pairs → i < ps.length →
    (pairs.foldl (fun ps ip => ps.set ip.1 (abs ip.2)) ps)[i]? = some (abs p) := by
  intro pairs
  induction pairs with
  | nil => intro ps i p _ hmem _; exact absurd hmem (List.not_mem_nil _)
  | cons ip rest ih =>
    intro ps i p hnd hmem hi
    rw [List.map_cons, List.nodup_cons] at hnd
    rw [List.foldl_cons]
    rcases List.mem_cons.mp hmem with h | h
    · subst h
      rw [foldl_set_of_not_mem rest _ i hnd.1]
      exact List.getElem?_set_self hi
    · exact ih _ i p hnd.2 h (by rw [List.length_set]; exact hi)

/-! ### Claim theorems -/

/-- Claim C2: `add` is a total function (it never fails), advances the
write cursor modulo the capacity, and once the buffer is full it
overwrites the oldest stored transition: starting from a fresh storage of
capacity `c > 0`, after `2*c` insertions the transition at logical slot
`i < c` of the deque is the `(i + c)`-th inserted transition (`k = 1`). -/
theorem C2_circular_overwrite {τ : Type} (c B : ℕ) (a b : ℚ) (hc : 0 < c)
    (ts : List τ) (hlen : ts.length = 2 * c) (i : ℕ) (hi : i < c)
    (s : PRStorage τ) (t : τ) :
    ((PRStorage.fresh τ c B a b).addAll ts).storage[i]? = ts[i + c]? ∧
    (s.add t).position = (s.position + 1) % s.storage_size := by
  constructor
  · rw [addAll_storage]
    show (ts.foldl (dequeAppend c) [])[i]? = _
    rw [foldl_dequeAppend c hc, hlen]
    have h2 : 2 * c - c = c := by omega
    rw [h2, List.getElem?_drop]
    congr 1
    omega
  · rfl

/-- Witness for C2: capacity 2, insertions `[0,1,2,3]`, slot 1 holds the
third inserted transition, and one concrete cursor advance. -/
theorem C2_circular_overwrite_witness :
    (0:ℕ) < 2 ∧ ([0,1,2,3] : List ℕ).length = 2 * 2 ∧ (1:ℕ) < 2 ∧
    (((PRStorage.fresh ℕ 2 9 1 (2/5)).addAll [0,1,2,3]).storage[1]? =
        ([0,1,2,3] : List ℕ)[1 + 2]? ∧
      ((PRStorage.fresh ℕ 2 9 1 (2/5)).add 7).position =
        ((PRStorage.fresh ℕ 2 9 1 (2/5)).position + 1) %
          (PRStorage.fresh ℕ 2 9 1 (2/5)).storage_size) :=
  ⟨by decide, by decide, by decide,
    C2_circular_overwrite 2 9 1 (2/5) (by decide) [0,1,2,3] (by decide) 1
      (by decide) (PRStorage.fresh ℕ 2 9 1 (2/5)) 7⟩

/-- Claim C7: `update` with both keys present overwrites the priority at
each listed index with the absolute value of the paired priority, leaves
every unlisted index unchanged, and is a no-op when a key is absent. -/
theorem C7_update_priorities {τ : Type} (s : PRStorage τ)
    (pairs : List (ℕ × ℚ)) (i j : ℕ) (p : ℚ)
    (hnd : (pairs.map Prod.fst).Nodup) (hmem : (i, p) ∈ pairs)
    (hi : i < s.priorities.length) (hj : j ∉ pairs.map Prod.fst) :
    s.update none = s ∧
    (s.update (some pairs)).priorities[i]? = some (abs p) ∧
    (s.update (some pairs)).priorities[j]? = s.priorities[j]? :=
  ⟨rfl, foldl_set_of_mem pairs s.priorities i p hnd hmem hi,
    foldl_set_of_not_mem pairs s.priorities j hj⟩

/-- Witness for C7: the spec's example — indices `[2,5]` with priorities
`[0.3, -0.7]`; slot 5 becomes `|-0.7| = 0.7` and slot 0 is unchanged. -/
theorem C7_update_priorities_witness :
    ([((2:ℕ), (3:ℚ)/10), (5, -7/10)].map Prod.fst).Nodup ∧
    ((5:ℕ), -(7:ℚ)/10) ∈ [((2:ℕ), (3:ℚ)/10), (5, -7/10)] ∧
    (5:ℕ) < (PRStorage.fresh ℕ 8 2 (3/5) (2/5)).priorities.length ∧
    ((PRStorage.fresh ℕ 8 2 (3/5) (2/5)).update none =
        PRStorage.fresh ℕ 8 2 (3/5) (2/5) ∧
      ((PRStorage.fresh ℕ 8 2 (3/5) (2/5)).update
          (some [(2, 3/10), (5, -7/10)])).priorities[5]? =
        some (abs (-(7:ℚ)/10)) ∧
      ((PRStorage.fresh ℕ 8 2 (3/5) (2/5)).update
          (some [(2, 3/10), (5, -7/10)])).priorities[0]? =
        (PRStorage.fresh ℕ 8 2 (3/5) (2/5)).priorities[0]?) :=
  ⟨by decide, by norm_num, by decide,
    C7_update_priorities (PRStorage.fresh ℕ 8 2 (3/5) (2/5))
      [(2, 3/10), (5, -7/10)] 5 0 (-7/10) (by decide) (by norm_num)
      (by decide) (by decide)⟩

/-- Claim C5: the three precondition violations fail fast with a
diagnostic rather than producing silently wrong statistics — constructing
the storage with non-positive `alpha` hits the constructor assertion,
sampling from an empty replay buffer fails inside `np.random.choice`
(population size 0), and `eval` without an evaluation environment hits
its opening assertion. -/
theorem C5_fail_fast {τ ε : Type} [Inhabited τ] (c B : ℕ) (a b : ℚ)
    (ha : a ≤ 0) (s : PRStorage τ) (hs : s.storage = [])
    (step : ℕ) (idxs : List ℕ) :
    PRStorage.init τ c B a b =
      Except.error "The prioritization value 'alpha' must be positive!" ∧
    s.sample step idxs =
      Except.error "a must be greater than 0 unless no samples are taken" ∧
    evalEnvGuard (none : Option ε) =
      Except.error "No evaluation environment is provided!" := by
  refine ⟨?_, ?_, rfl⟩
  · rw [PRStorage.init, if_neg (not_lt.mpr ha)]
  · rw [PRStorage.sample, hs]
    rfl

/-- Witness for C5: `alpha = 0`, a freshly constructed (hence empty)
capacity-4 storage, and a missing evaluation environment. -/
theorem C5_fail_fast_witness :
    (0:ℚ) ≤ 0 ∧ (PRStorage.fresh ℕ 4 2 1 (2/5)).storage = [] ∧
    (PRStorage.init ℕ 4 2 0 (2/5) =
        Except.error "The prioritization value 'alpha' must be positive!" ∧
      (PRStorage.fresh ℕ 4 2 1 (2/5)).sample 0 [] =
        Except.error "a must be greater than 0 unless no samples are taken" ∧
      evalEnvGuard (none : Option Unit) =
        Except.error "No evaluation environment is provided!") :=
  ⟨le_refl 0, rfl,
    C5_fail_fast 4 2 0 (2/5) (le_refl 0) (PRStorage.fresh ℕ 4 2 1 (2/5))
      rfl 0 []⟩

/-- Claim C10: sampling is with replacement, so a buffer holding fewer
transitions than `batch_size` (but at least one, with some strictly
positive priority) is not an error: `sample` succeeds, returns exactly
`batch_size` transitions, and every returned index lies in `[0, n)`. -/
theorem C10_sample_with_replacement {τ : Type} [Inhabited τ]
    (s : PRStorage τ) (step : ℕ) (idxs : List ℕ) (i : ℕ)
    (h1 : 1 ≤ s.storage.length) (h2 : s.storage.length < s.batch_size)
    (hnn : s.sliced.all (fun p => decide (0 ≤ p)) = true)
    (hpos : s.sliced.any (fun p => decide (0 < p)) = true)
    (hlen : idxs.length = s.batch_size)
    (hmem : i ∈ idxs) (hrange : ∀ k ∈ idxs, k < s.storage.length) :
    s.sample step idxs = Except.ok (idxs, s.drawn idxs) ∧
    (s.drawn idxs).length = s.batch_size ∧
    i < s.storage.length := by
  refine ⟨?_, ?_, hrange i hmem⟩
  · rw [PRStorage.sample, if_neg (by omega), hnn]
    simp [hpos]
  · rw [PRStorage.drawn, List.length_map, hlen]

/-- Witness for C10: one stored transition, `batch_size = 2`, the draw
`[0, 0]` repeats the single index. -/
theorem C10_sample_with_replacement_witness :
    1 ≤ ((PRStorage.fresh ℕ 4 2 1 (2/5)).add 7).storage.length ∧
    ((PRStorage.fresh ℕ 4 2 1 (2/5)).add 7).storage.length <
      ((PRStorage.fresh ℕ 4 2 1 (2/5)).add 7).batch_size ∧
    (((PRStorage.fresh ℕ 4 2 1 (2/5)).add 7).sample 0 [0, 0] =
        Except.ok ([0, 0], ((PRStorage.fresh ℕ 4 2 1 (2/5)).add 7).drawn [0, 0]) ∧
      (((PRStorage.fresh ℕ 4 2 1 (2/5)).add 7).drawn [0, 0]).length =
        ((PRStorage.fresh ℕ 4 2 1 (2/5)).add 7).batch_size ∧
      0 < ((PRStorage.fresh ℕ 4 2 1 (2/5)).add 7).storage.length) :=
  ⟨by decide, by decide,
    C10_sample_with_replacement ((PRStorage.fresh ℕ 4 2 1 (2/5)).add 7) 0
      [0, 0] 0 (by decide) (by decide) (by decide) (by decide) (by decide)
      (by decide) (by decide)⟩

/-- Claim C4 (code-bug evidence): the all-zero-priority degeneracy is not
guarded. In `c4state` every occupied slot has priority zero; `sample`
then computes `probs = 0/0` (a NaN vector) and `np.random.choice` raises
`ValueError` — there is no fallback to uniform sampling. -/
theorem C4_all_zero_priorities_unguarded :
    c4state.sliced = [0] ∧
    c4state.sample 0 [0] = Except.error "probabilities contain NaN" := by
  constructor
  · rfl
  · rfl

/-- Claim C1 (code-bug evidence): `add` does assign the newly inserted
transition the maximal priority, but after the write cursor has wrapped
around the deque indices rotate against the priority array, so `sample`
reads another slot's priority for the new transition. In `c1state` the
new transition 12 sits at deque slot 1 and its priority 5 (the maximum)
was written at array index 0; `sample` draws slot 1 with probability
`1/6`, strictly less than the `5/6` of the older transition at slot 0. -/
theorem C1_new_item_prob_not_max :
    c1state.storage[1]? = some 12 ∧
    c1state.priorities[0]? = some (npmax c1state.priorities) ∧
    c1state.probs.getD 1 0 < c1state.probs.getD 0 0 := by
  refine ⟨rfl, by decide, ?_⟩
  have hsl : c1state.sliced = [5, 1] := by decide
  have halpha : c1state.alpha = 1 := by decide
  have hraw : c1state.probsRaw = [(5:ℝ), 1] := by
    rw [PRStorage.probsRaw, hsl, halpha]
    norm_num [Real.rpow_one]
  rw [PRStorage.probs, hraw]
  norm_num [List.getD]

/-- Claim C6: `annealing_beta` is monotone non-decreasing in the step,
bounded above by 1, and saturates at exactly 1 for every step greater
than or equal to `storage_size`, whenever `0 < beta ≤ 1` and the storage
size is positive. -/
theorem C6_annealing_beta_monotone {τ : Type} (s : PRStorage τ)
    (hb0 : 0 < s.beta) (hb1 : s.beta ≤ 1) (hS : 0 < s.storage_size)
    (s1 s2 : ℕ) (h12 : s1 ≤ s2) (st : ℕ) (hst : s.storage_size ≤ st) :
    s.annealing_beta s1 ≤ s.annealing_beta s2 ∧
    s.annealing_beta s1 ≤ 1 ∧
    s.annealing_beta st = 1 := by
  have hSQ : (0:ℚ) < (s.storage_size : ℚ) := by exact_mod_cast hS
  have hbQ : (0:ℚ) ≤ 1 - s.beta := sub_nonneg.mpr hb1
  refine ⟨?_, min_le_left _ _, ?_⟩
  · rw [PRStorage.annealing_beta, PRStorage.annealing_beta]
    have hmul : (s1 : ℚ) * (1 - s.beta) / (s.storage_size : ℚ) ≤
        (s2 : ℚ) * (1 - s.beta) / (s.storage_size : ℚ) := by
      apply div_le_div_of_nonneg_right _ (le_of_lt hSQ)
      exact mul_le_mul_of_nonneg_right (by exact_mod_cast h12) hbQ
    exact min_le_min (le_refl 1) (add_le_add_left hmul _)
  · rw [PRStorage.annealing_beta]
    apply min_eq_left
    have hstQ : (s.storage_size : ℚ) ≤ (st : ℚ) := by exact_mod_cast hst
    have h1 : (1 - s.beta) ≤ (st : ℚ) * (1 - s.beta) / (s.storage_size : ℚ) := by
      rw [le_div_iff hSQ]
      nlinarith
    linarith

/-- Witness for C6: `beta = 2/5`, `storage_size = 4`, steps `1 ≤ 3`, and
saturation at step 7. -/
theorem C6_annealing_beta_monotone_witness :
    (0:ℚ) < (PRStorage.fresh ℕ 4 2 (3/5) (2/5)).beta ∧
    (PRStorage.fresh ℕ 4 2 (3/5) (2/5)).beta ≤ 1 ∧
    0 < (PRStorage.fresh ℕ 4 2 (3/5) (2/5)).storage_size ∧
    ((PRStorage.fresh ℕ 4 2 (3/5) (2/5)).annealing_beta 1 ≤
        (PRStorage.fresh ℕ 4 2 (3/5) (2/5)).annealing_beta 3 ∧
      (PRStorage.fresh ℕ 4 2 (3/5) (2/5)).annealing_beta 1 ≤ 1 ∧
      (PRStorage.fresh ℕ 4 2 (3/5) (2/5)).annealing_beta 7 = 1) :=
  ⟨by norm_num [PRStorage.fresh], by norm_num [PRStorage.fresh], by decide,
    C6_annealing_beta_monotone (PRStorage.fresh ℕ 4 2 (3/5) (2/5))
      (by norm_num [PRStorage.fresh]) (by norm_num [PRStorage.fresh])
      (by decide) 1 3 (by decide) 7 (by decide)⟩

/-- Claim C8: when an intrinsic reward module is attached, the intrinsic
reward tensor computed over the segment is added in place to both the
storage's `advantages` and `returns` after `compute_returns_and_advantages`
has run: every entry is raised by exactly the corresponding intrinsic
value, never substituted for the extrinsic contribution. -/
theorem C8_intrinsic_additive (st : RolloutStorage) (ir : List ℚ) (k : ℕ)
    (ha : ir.length = st.advantages.length)
    (hr : ir.length = st.returns.length) (hk : k < ir.length) :
    (injectIntrinsic st ir).advantages[k]? =
      some (st.advantages.getD k 0 + ir.getD k 0) ∧
    (injectIntrinsic st ir).returns[k]? =
      some (st.returns.getD k 0 + ir.getD k 0) := by
  constructor
  · show (List.zipWith (· + ·) st.advantages ir)[k]? = _
    have hlen : k < (List.zipWith (· + ·) st.advantages ir).length := by
      rw [List.length_zipWith]
      omega
    rw [List.getElem?_eq_getElem hlen, List.getElem_zipWith,
      List.getD_eq_getElem st.advantages 0 (by omega),
      List.getD_eq_getElem ir 0 hk]
  · show (List.zipWith (· + ·) st.returns ir)[k]? = _
    have hlen : k < (List.zipWith (· + ·) st.returns ir).length := by
      rw [List.length_zipWith]
      omega
    rw [List.getElem?_eq_getElem hlen, List.getElem_zipWith,
      List.getD_eq_getElem st.returns 0 (by omega),
      List.getD_eq_getElem ir 0 hk]

/-- Witness for C8: the spec's end-to-end scenario — a 4-entry segment
with returns `[1,0,0,1]`, zero advantages, and a constant intrinsic
reward of `0.1`; entry 2 of both fields is raised by exactly `0.1`. -/
theorem C8_intrinsic_additive_witness :
    (List.replicate 4 ((1:ℚ)/10)).length =
      (RolloutStorage.mk [0, 0, 0, 0] [1, 0, 0, 1]).advantages.length ∧
    (List.replicate 4 ((1:ℚ)/10)).length =
      (RolloutStorage.mk [0, 0, 0, 0] [1, 0, 0, 1]).returns.length ∧
    2 < (List.replicate 4 ((1:ℚ)/10)).length ∧
    ((injectIntrinsic (RolloutStorage.mk [0, 0, 0, 0] [1, 0, 0, 1])
          (List.replicate 4 (1/10))).advantages[2]? =
        some ((RolloutStorage.mk [(0:ℚ), 0, 0, 0] [1, 0, 0, 1]).advantages.getD 2 0 +
          (List.replicate 4 ((1:ℚ)/10)).getD 2 0) ∧
      (injectIntrinsic (RolloutStorage.mk [0, 0, 0, 0] [1, 0, 0, 1])
          (List.replicate 4 (1/10))).returns[2]? =
        some ((RolloutStorage.mk [(0:ℚ), 0, 0, 0] [1, 0, 0, 1]).returns.getD 2 0 +
          (List.replicate 4 ((1:ℚ)/10)).getD 2 0)) :=
  ⟨by decide, by decide, by decide,
    C8_intrinsic_additive (RolloutStorage.mk [0, 0, 0, 0] [1, 0, 0, 1])
      (List.replicate 4 (1/10)) 2 (by decide) (by decide) (by decide)⟩

theorem trainCycle_global_step (ne ns : ℕ)
    (f g : RolloutStorage → RolloutStorage) (irs : Option (List ℚ))
    (ts : TrainState) :
    (trainCycle ne ns f g irs ts).global_step = ts.global_step + ne * ns := rfl

theorem trainCycle_global_episode (ne ns : ℕ)
    (f g : RolloutStorage → RolloutStorage) (irs : Option (List ℚ))
    (ts : TrainState) :
    (trainCycle ne ns f g irs ts).global_episode = ts.global_episode + ne := rfl

theorem trainCycle_iterate (ne ns : ℕ)
    (f g : RolloutStorage → RolloutStorage) (irs : Option (List ℚ))
    (n : ℕ) (ts : TrainState) :
    ((trainCycle ne ns f g irs)^[n] ts).global_step =
      ts.global_step + n * (ne * ns) ∧
    ((trainCycle ne ns f g irs)^[n] ts).global_episode =
      ts.global_episode + n * ne := by
  induction n generalizing ts with
  | zero => simp
  | succ m ih =>
    rw [Function.iterate_succ_apply]
    rcases ih (trainCycle ne ns f g irs ts) with ⟨h1, h2⟩
    constructor
    · rw [h1, trainCycle_global_step]
      ring
    · rw [h2, trainCycle_global_episode]
      ring

/-- Claim C9: each completed update cycle advances the global step
counter by exactly `num_envs * num_steps` and the global episode counter
by exactly `num_envs`; after
`num_updates = num_train_steps // num_envs // num_steps` cycles the
counters have advanced by `num_updates * num_envs * num_steps` and
`num_updates * num_envs` respectively. -/
theorem C9_counter_advance (T ne ns : ℕ)
    (f g : RolloutStorage → RolloutStorage) (irs : Option (List ℚ))
    (ts : TrainState) :
    (trainCycle ne ns f g irs ts).global_step = ts.global_step + ne * ns ∧
    (trainCycle ne ns f g irs ts).global_episode = ts.global_episode + ne ∧
    ((trainCycle ne ns f g irs)^[numUpdates T ne ns] ts).global_step =
      ts.global_step + numUpdates T ne ns * ne * ns ∧
    ((trainCycle ne ns f g irs)^[numUpdates T ne ns] ts).global_episode =
      ts.global_episode + numUpdates T ne ns * ne := by
  refine ⟨rfl, rfl, ?_, (trainCycle_iterate ne ns f g irs _ ts).2⟩
  rw [(trainCycle_iterate ne ns f g irs (numUpdates T ne ns) ts).1]
  ring

/-- Claim C3: for every non-empty storage, with the drawn indices inside
the support of the sampling distribution (`np.random.choice` only returns
indices of positive probability), the normalized weight vector returned
by `sample` has maximum exactly 1 and all entries non-negative; each
unnormalized weight is `(N * p_i) ** (-annealing_beta(step))` by
definition of `rawWeights`. -/
theorem C3_weights_normalized {τ : Type} (s : PRStorage τ) (step : ℕ)
    (idxs : List ℕ) (w : ℝ)
    (hne : idxs ≠ [])
    (hpos0 : 0 < s.storage.length)
    (hslen : s.sliced.length = s.storage.length)
    (hnn : ∀ p ∈ s.sliced, 0 ≤ p)
    (hidx : ∀ i ∈ idxs, i < s.storage.length ∧ 0 < s.sliced.getD i 0)
    (hw : w ∈ s.weights step idxs) :
    npmax (s.weights step idxs) = 1 ∧ 0 ≤ w := by
  have hrawlen : s.probsRaw.length = s.sliced.length := List.length_map _ _
  have hrawnn : ∀ x ∈ s.probsRaw, 0 ≤ x := by
    intro x hx
    rcases List.mem_map.mp hx with ⟨p, hp, hpx⟩
    rw [← hpx]
    exact Real.rpow_nonneg (by exact_mod_cast hnn p hp) _
  have hrawget : ∀ i ∈ idxs,
      s.probsRaw.getD i 0 = ((s.sliced.getD i 0 : ℚ) : ℝ) ^ (s.alpha : ℝ) := by
    intro i hi
    have hilt : i < s.sliced.length := hslen ▸ (hidx i hi).1
    rw [List.getD_eq_getElem s.probsRaw 0 (by rw [hrawlen]; exact hilt),
      List.getD_eq_getElem s.sliced 0 hilt]
    exact List.getElem_map _
  have hrawpos : ∀ i ∈ idxs, 0 < s.probsRaw.getD i 0 := by
    intro i hi
    rw [hrawget i hi]
    exact Real.rpow_pos_of_pos (by exact_mod_cast (hidx i hi).2) _
  have htot : 0 < s.probsRaw.sum := by
    have hi0 : idxs.head hne ∈ idxs := List.head_mem hne
    have hilt : idxs.head hne < s.probsRaw.length := by
      rw [hrawlen, hslen]
      exact (hidx _ hi0).1
    have hmem : s.probsRaw.getD (idxs.head hne) 0 ∈ s.probsRaw := by
      rw [List.getD_eq_getElem s.probsRaw 0 hilt]
      exact List.getElem_mem hilt
    exact lt_of_lt_of_le (hrawpos _ hi0) (List.single_le_sum hrawnn _ hmem)
  have hprobspos : ∀ i ∈ idxs, 0 < s.probs.getD i 0 := by
    intro i hi
    have hilt : i < s.probsRaw.length := by
      rw [hrawlen, hslen]
      exact (hidx i hi).1
    have : s.probs.getD i 0 = s.probsRaw.getD i 0 / s.probsRaw.sum := by
      rw [List.getD_eq_getElem s.probs 0 (by rw [PRStorage.probs, List.length_map]; exact hilt),
        List.getD_eq_getElem s.probsRaw 0 hilt]
      exact List.getElem_map _
    rw [this]
    exact div_pos (hrawpos i hi) htot
  have hwpos : ∀ x ∈ s.rawWeights step idxs, 0 < x := by
    intro x hx
    rcases List.mem_map.mp hx with ⟨i, hi, hix⟩
    rw [← hix]
    apply Real.rpow_pos_of_pos
    exact mul_pos (by exact_mod_cast hpos0) (hprobspos i hi)
  have hrwne : s.rawWeights step idxs ≠ [] := by
    intro h
    exact hne (List.map_eq_nil.mp h)
  have hMpos : 0 < npmax (s.rawWeights step idxs) :=
    hwpos _ (npmax_mem hrwne)
  have hwne : s.weights step idxs ≠ [] := by
    intro h
    exact hrwne (List.map_eq_nil.mp h)
  have hle1 : ∀ y ∈ s.weights step idxs, y ≤ 1 := by
    intro y hy
    rcases List.mem_map.mp hy with ⟨x, hx, hxy⟩
    rw [← hxy]
    exact (div_le_one hMpos).mpr (le_npmax hx)
  have h1mem : (1:ℝ) ∈ s.weights step idxs := by
    have : npmax (s.rawWeights step idxs) / npmax (s.rawWeights step idxs) ∈
        s.weights step idxs :=
      List.mem_map.mpr ⟨_, npmax_mem hrwne, rfl⟩
    rw [div_self (ne_of_gt hMpos)] at this
    exact this
  constructor
  · exact le_antisymm (hle1 _ (npmax_mem hwne)) (le_npmax h1mem)
  · rcases List.mem_map.mp hw with ⟨x, hx, hxw⟩
    rw [← hxw]
    exact div_nonneg (le_of_lt (hwpos x hx)) (le_of_lt hMpos)

/-- Witness for C3: a full capacity-2 storage with two inserted
transitions (priorities `[1,1]`) and the draw `[0,1,0]` of size
`batch_size = 3`; the maximal normalized weight equals 1 and is
non-negative. -/
theorem C3_weights_normalized_witness :
    npmax (((PRStorage.fresh ℕ 2 3 1 1).addAll [7, 8]).weights 0 [0, 1, 0]) = 1 ∧
    0 ≤ npmax (((PRStorage.fresh ℕ 2 3 1 1).addAll [7, 8]).weights 0 [0, 1, 0]) :=
  C3_weights_normalized ((PRStorage.fresh ℕ 2 3 1 1).addAll [7, 8]) 0 [0, 1, 0]
    (npmax (((PRStorage.fresh ℕ 2 3 1 1).addAll [7, 8]).weights 0 [0, 1, 0]))
    (by decide) (by decide) (by decide) (by decide) (by decide)
    (npmax_mem (by simp [PRStorage.weights, PRStorage.rawWeights]))

end Rllte
